import Mathlib

/-!
Verification development for a disclosure-driven trading system
(buy_main.py, sell_main.py, losscut.py). The Python sources are embedded
shallowly: prices and multipliers are modelled as rationals (exact
arithmetic for the decimal literals appearing in the code), machine
integers as `Int`, Python `//` and `%` as `Int.fdiv` / `Int.fmod`
(floor division, divisor-signed remainder, which is what Python uses),
Python `int(_)` truncation toward zero as `intTrunc`, and Python 3
`round(_)` (banker's rounding, round half to even) as `pyRound`.
Network calls are modelled as oracle functions passed in as inputs;
fallible lookups return `Option`.
-/

/-- Python `int(x)` on a float/number: truncation toward zero. -/
def intTrunc (q : ℚ) : ℤ := if 0 ≤ q then ⌊q⌋ else -⌊-q⌋

/-- Python 3 `round(x)` with no digits argument: round half to even. -/
def pyRound (q : ℚ) : ℤ :=
  if q - ⌊q⌋ < 1/2 then ⌊q⌋
  else if 1/2 < q - ⌊q⌋ then ⌊q⌋ + 1
  else if 2 ∣ ⌊q⌋ then ⌊q⌋ else ⌊q⌋ + 1

lemma intTrunc_intCast (n : ℤ) : intTrunc (n : ℚ) = n := by
  unfold intTrunc
  rcases le_or_lt 0 (n : ℚ) with h | h
  · rw [if_pos h, Int.floor_intCast]
  · rw [if_neg (not_le.2 h)]
    rw [show (-(n : ℚ)) = ((-n : ℤ) : ℚ) by push_cast; ring, Int.floor_intCast]
    ring

lemma intTrunc_eq_floor (q : ℚ) (h : 0 ≤ q) : intTrunc q = ⌊q⌋ := if_pos h

lemma pyRound_intCast (n : ℤ) : pyRound (n : ℚ) = n := by
  unfold pyRound
  rw [Int.floor_intCast]
  rw [if_pos (by norm_num)]

/-- `losscut.adjust_price_to_tick` after the `int(price)` step: pick a tick of
1 for prices ≤ 3000, 5 for prices in (3000, 5000], 10 above 5000, and floor
to a multiple of the tick (`(p // tick) * tick`). -/
def adjT (p : ℤ) : ℤ :=
  if p ≤ 3000 then (p.fdiv 1) * 1
  else if p ≤ 5000 then (p.fdiv 5) * 5
  else (p.fdiv 10) * 10

/-- `losscut.adjust_price_to_tick`: `p = int(price)`, then tick-floor. -/
def adjust_price_to_tick (price : ℚ) : ℤ := adjT (intTrunc price)

/-- `sell_main.round_sell_price_for_rules`: `p = int(price)`; above 5000
floor to 10 (`(p // 10) * 10`); above 3000 floor to 5; otherwise unchanged. -/
def round_sell_price_for_rules (price : ℚ) : ℤ :=
  let p := intTrunc price
  if 5000 < p then (p.fdiv 10) * 10
  else if 3000 < p then (p.fdiv 5) * 5
  else p

/-- The buy-side price quantization inlined in `buy_main.send_buy_order`:
`limit_price = int(round(limit_price))`, then above 5000 subtract
`limit_price % 10`, above 3000 subtract `limit_price % 5`. -/
def sendBuyOrderPrice (limit_price : ℚ) : ℤ :=
  let lp := pyRound limit_price
  if 5000 < lp then lp - lp.fmod 10
  else if 3000 < lp then lp - lp.fmod 5
  else lp

lemma fdiv_mul_le (p b : ℤ) (hb : 0 < b) :
    (p.fdiv b) * b ≤ p ∧ p < (p.fdiv b) * b + b := by
  have h1 := Int.fdiv_add_fmod p b
  have h2 := Int.fmod_lt_of_pos p hb
  have h3 : 0 ≤ p.fmod b := by
    rw [Int.fmod_eq_emod _ (le_of_lt hb)]
    exact Int.emod_nonneg p (by omega)
  have h4 : p.fdiv b * b = b * p.fdiv b := mul_comm _ _
  constructor <;> linarith

lemma adjT_idem (p : ℤ) : adjT (adjT p) = adjT p := by
  rcases le_or_lt p 3000 with h1 | h1
  · simp [adjT, if_pos h1, Int.fdiv_one]
  · rcases le_or_lt p 5000 with h2 | h2
    · have hb := fdiv_mul_le p 5 (by norm_num)
      have hval : adjT p = p.fdiv 5 * 5 := by
        unfold adjT; rw [if_neg (by omega), if_pos h2]
      rw [hval]
      by_cases h3 : p.fdiv 5 * 5 ≤ 3000
      · unfold adjT; rw [if_pos h3, Int.fdiv_one, mul_one]
      · have h4 : p.fdiv 5 * 5 ≤ 5000 := by linarith [hb.1]
        unfold adjT; rw [if_neg h3, if_pos h4]
        have h5 : (5 * p.fdiv 5).fdiv 5 = p.fdiv 5 :=
          Int.mul_fdiv_cancel_left _ (by norm_num)
        rw [mul_comm (p.fdiv 5) 5, h5]; exact mul_comm _ _
    · have hb := fdiv_mul_le p 10 (by norm_num)
      have hval : adjT p = p.fdiv 10 * 10 := by
        unfold adjT; rw [if_neg (by omega), if_neg (by omega)]
      rw [hval]
      have hge : 5000 ≤ p.fdiv 10 * 10 := by
        rcases hb with ⟨hl, hu⟩
        have h6 : 4991 ≤ p.fdiv 10 * 10 := by omega
        omega
      by_cases h3 : p.fdiv 10 * 10 ≤ 5000
      · have heq : p.fdiv 10 * 10 = 5000 := le_antisymm h3 hge
        unfold adjT; rw [heq]; norm_num; decide
      · unfold adjT; rw [if_neg (by omega), if_neg h3]
        have h5 : (10 * p.fdiv 10).fdiv 10 = p.fdiv 10 :=
          Int.mul_fdiv_cancel_left _ (by norm_num)
        rw [mul_comm (p.fdiv 10) 10, h5]; exact mul_comm _ _

lemma adjT_le (p : ℤ) : adjT p ≤ p := by
  unfold adjT
  have h5 := fdiv_mul_le p 5 (by norm_num)
  have h10 := fdiv_mul_le p 10 (by norm_num)
  split_ifs with h1 h2
  · rw [Int.fdiv_one, mul_one]
  · exact h5.1
  · exact h10.1

lemma intTrunc_le (q : ℚ) (h : 0 ≤ q) : (intTrunc q : ℚ) ≤ q := by
  rw [intTrunc_eq_floor q h]; exact Int.floor_le q

lemma intTrunc_lt_add_one (q : ℚ) (h : 0 ≤ q) : q < (intTrunc q : ℚ) + 1 := by
  rw [intTrunc_eq_floor q h]; exact Int.lt_floor_add_one q

/-! ### String utilities

Python's `pat in text`, `str.split(sep)` (single-character separator) and
`int(str)` are modelled over the character list of a `String`. -/

def startsWithCL : List Char → List Char → Bool
  | [], _ => true
  | _ :: _, [] => false
  | p :: ps, c :: cs => p = c && startsWithCL ps cs

def isInfixCL (pat : List Char) : List Char → Bool
  | [] => pat.isEmpty
  | c :: cs => startsWithCL pat (c :: cs) || isInfixCL pat cs

/-- Python `pat in t` on strings. -/
def containsSub (t pat : String) : Bool := isInfixCL pat.data t.data

/-- Python `t.split(sep)` for a single-character separator: keeps empty
pieces, always returns at least one piece. -/
def splitOnChar (sep : Char) : List Char → List (List Char)
  | [] => [[]]
  | c :: cs =>
    let r := splitOnChar sep cs
    if c = sep then [] :: r
    else match r with
      | [] => [[c]]
      | h :: t => (c :: h) :: t

def digitsToNat : List Char → ℕ → Option ℕ
  | [], acc => some acc
  | c :: cs, acc =>
    if '0' ≤ c ∧ c ≤ '9' then digitsToNat cs (10 * acc + (c.toNat - '0'.toNat))
    else none

/-- Python `int(s)` on a decimal string (optional sign, digits); anything
else raises `ValueError`, modelled as `none`. -/
def parseIntCL : List Char → Option ℤ
  | [] => none
  | '-' :: rest => if rest = [] then none else (digitsToNat rest 0).map (fun n => -(n : ℤ))
  | '+' :: rest => if rest = [] then none else (digitsToNat rest 0).map (fun n => (n : ℤ))
  | cs => (digitsToNat cs 0).map (fun n => (n : ℤ))

/-! ### Budget constants and the classifier (`buy_main.decide_order_plan`) -/

def BUDGET_UPPER_REVISION_PLUS_ZOHAI : ℤ := 1500000
def BUDGET_RYOKO : ℤ := 1500000
def BUDGET_BUSINESS_ALLIANCE : ℤ := 1000000
def BUDGET_CAPITAL_ALLIANCE : ℤ := 1000000
def BUDGET_SELF_STOCK : ℤ := 500000
def BUDGET_NEW_YUTAI : ℤ := 1000000
def BUDGET_UPPER_REVISION : ℤ := 1000000
def BUDGET_KANSEI : ℤ := 1000000
def BUDGET_SAITAKU : ℤ := 1000000
def BUDGET_SELF_STOCK_CANCEL : ℤ := 1250000
def BUDGET_SELF_STOCK_ACQUIRE_AND_CANCEL : ℤ := 1500000

def self_stock_words : List String :=
  ["自己株式取得", "自己株式の取得", "自己株式の買", "自己投資口"]

/-- Python `any(w in text for w in ws)`. -/
def anySub (text : String) (ws : List String) : Bool :=
  ws.any (fun w => containsSub text w)

structure Plan where
  qty : ℤ
  reason : String
  budget_label : String
deriving Repr, DecidableEq

/-- The arm body repeated verbatim in every matched tier of
`decide_order_plan`: `adjusted_budget = int(base_budget * factor)`; if
`cost_per_100 > adjusted_budget` force one round lot (100); otherwise
`lots = adjusted_budget // cost_per_100`, quantity 0 if `lots <= 0`, else
`lots * 100`. The reason strings differ slightly between arms and are
passed in. -/
def tierPlan (budget_label : String) (base_budget : ℤ) (cost_per_100 : ℤ)
    (factor : ℚ) (rOver : ℤ → String) (rZero : ℤ → String)
    (rLots : ℤ → ℤ → String) : Plan :=
  let adjusted_budget := intTrunc ((base_budget : ℚ) * factor)
  if adjusted_budget < cost_per_100 then
    ⟨100, rOver adjusted_budget, budget_label⟩
  else
    let lots := adjusted_budget.fdiv cost_per_100
    if lots ≤ 0 then ⟨0, rZero adjusted_budget, budget_label⟩
    else ⟨lots * 100, rLots lots adjusted_budget, budget_label⟩

/-- `buy_main.decide_order_plan(title_text, cost_per_100, factor)`:
first-match-wins cascade over headline keywords, returning
`(qty, reason, budget_label)`. -/
def decide_order_plan (text : String) (cost_per_100 : ℤ)
    (factor : ℚ) : Plan :=
  if containsSub text ("消却") && anySub text self_stock_words then
    tierPlan ("自己株式取得 + 消却") BUDGET_SELF_STOCK_ACQUIRE_AND_CANCEL cost_per_100 factor
      (fun adjusted_budget => s!"自己株式取得 + 消却 => 上限{adjusted_budget}円超 => 1単元のみ")
      (fun adjusted_budget => s!"自己株式取得 + 消却 => 調整後上限{adjusted_budget}円以内で買えない => 発注なし")
      (fun lots adjusted_budget => s!"自己株式取得 + 消却 => 合計 {lots}単元 (adjusted_budget={adjusted_budget})")
  else if containsSub text ("自己株式の消却") then
    tierPlan ("自己株式の消却") BUDGET_SELF_STOCK_CANCEL cost_per_100 factor
      (fun adjusted_budget => s!"自己株式の消却 => 上限{adjusted_budget}円超 => 1単元のみ")
      (fun adjusted_budget => s!"自己株式の消却 => 調整後上限{adjusted_budget}円以内で買えない => 発注なし")
      (fun lots adjusted_budget => s!"自己株式の消却 => 合計 {lots}単元 (adjusted_budget={adjusted_budget})")
  else if anySub text self_stock_words then
    tierPlan ("自己株式取得系") BUDGET_SELF_STOCK cost_per_100 factor
      (fun adjusted_budget => s!"自己株式取得系 => 上限{adjusted_budget}円超 => 1単元のみ")
      (fun adjusted_budget => s!"自己株式取得系 => 調整後の上限{adjusted_budget}円以内=>発注なし")
      (fun lots adjusted_budget => s!"自己株式取得系 => 合計 {lots}単元 (adjusted_budget={adjusted_budget})")
  else if containsSub text ("上方") && containsSub text ("増配") then
    tierPlan ("上方修正 + 増配") BUDGET_UPPER_REVISION_PLUS_ZOHAI cost_per_100 factor
      (fun adjusted_budget => s!"上方+増配 => 上限{adjusted_budget}円超 => 1単元のみ")
      (fun adjusted_budget => s!"上方+増配 => 調整後の上限{adjusted_budget}円以内で買えない => 発注なし")
      (fun lots adjusted_budget => s!"上方+増配 => 合計 {lots}単元 (adjusted_budget={adjusted_budget})")
  else if containsSub text ("良好") then
    tierPlan ("良好") BUDGET_RYOKO cost_per_100 factor
      (fun adjusted_budget => s!"良好 => 上限{adjusted_budget}円超 => 1単元のみ")
      (fun adjusted_budget => s!"良好 => 調整後の上限{adjusted_budget}円以内で買えない => 発注なし")
      (fun lots adjusted_budget => s!"良好 => 合計 {lots}単元 (adjusted_budget={adjusted_budget})")
  else if containsSub text ("株主優待") &&
      (containsSub text ("新設") || containsSub text ("導入") || containsSub text ("再開")) then
    tierPlan ("優待(新設/導入/再開)") BUDGET_NEW_YUTAI cost_per_100 factor
      (fun adjusted_budget => s!"優待(新設/導入/再開) => 上限{adjusted_budget}円超 => 1単元のみ")
      (fun adjusted_budget => s!"優待(新設/導入/再開) => 調整後の上限{adjusted_budget}円以内=>発注なし")
      (fun lots adjusted_budget => s!"優待(新設/導入/再開) => 合計 {lots}単元 (adjusted_budget={adjusted_budget})")
  else if containsSub text ("業務提携") then
    tierPlan ("業務提携") BUDGET_BUSINESS_ALLIANCE cost_per_100 factor
      (fun adjusted_budget => s!"業務提携 => 上限{adjusted_budget}円超 => 1単元のみ")
      (fun adjusted_budget => s!"業務提携 => 上限{adjusted_budget}円以内=>発注なし")
      (fun lots adjusted_budget => s!"業務提携 => 合計 {lots}単元 (adjusted_budget={adjusted_budget})")
  else if containsSub text ("資本提携") then
    tierPlan ("資本提携") BUDGET_CAPITAL_ALLIANCE cost_per_100 factor
      (fun adjusted_budget => s!"資本提携 => 上限{adjusted_budget}円超 => 1単元のみ")
      (fun adjusted_budget => s!"資本提携 => 調整後の上限{adjusted_budget}円以内=>発注なし")
      (fun lots adjusted_budget => s!"資本提携 => 合計 {lots}単元 (adjusted_budget={adjusted_budget})")
  else if containsSub text ("完成") then
    tierPlan ("完成") BUDGET_KANSEI cost_per_100 factor
      (fun adjusted_budget => s!"完成 => 上限{adjusted_budget}円超 => 1単元のみ")
      (fun adjusted_budget => s!"完成 => 調整後の上限{adjusted_budget}円以内=>発注なし")
      (fun lots adjusted_budget => s!"完成 => 合計 {lots}単元 (adjusted_budget={adjusted_budget})")
  else if containsSub text ("採択") then
    tierPlan ("採択") BUDGET_SAITAKU cost_per_100 factor
      (fun adjusted_budget => s!"採択 => 上限{adjusted_budget}円超 => 1単元のみ")
      (fun adjusted_budget => s!"採択 => 調整後の上限{adjusted_budget}円以内=>発注なし")
      (fun lots adjusted_budget => s!"採択 => 合計 {lots}単元 (adjusted_budget={adjusted_budget})")
  else if containsSub text ("上方") then
    tierPlan ("上方修正(単独)") BUDGET_UPPER_REVISION cost_per_100 factor
      (fun adjusted_budget => s!"上方単独 => 上限{adjusted_budget}円超 => 1単元のみ")
      (fun adjusted_budget => s!"上方単独 => 調整後の上限{adjusted_budget}円以内=>発注なし")
      (fun lots adjusted_budget => s!"上方単独 => 合計 {lots}単元 (adjusted_budget={adjusted_budget})")
  else
    ⟨0, "ポジティブ条件該当なし => 発注なし", "未該当"⟩

/-- The base budget of the tier the headline matches in the
`decide_order_plan` cascade (same conditions, same order), `none` when no
tier matches. -/
def matchedBase (text : String) : Option ℤ :=
  if containsSub text ("消却") && anySub text self_stock_words then
    some BUDGET_SELF_STOCK_ACQUIRE_AND_CANCEL
  else if containsSub text ("自己株式の消却") then some BUDGET_SELF_STOCK_CANCEL
  else if anySub text self_stock_words then some BUDGET_SELF_STOCK
  else if containsSub text ("上方") && containsSub text ("増配") then
    some BUDGET_UPPER_REVISION_PLUS_ZOHAI
  else if containsSub text ("良好") then some BUDGET_RYOKO
  else if containsSub text ("株主優待") &&
      (containsSub text ("新設") || containsSub text ("導入") || containsSub text ("再開")) then
    some BUDGET_NEW_YUTAI
  else if containsSub text ("業務提携") then some BUDGET_BUSINESS_ALLIANCE
  else if containsSub text ("資本提携") then some BUDGET_CAPITAL_ALLIANCE
  else if containsSub text ("完成") then some BUDGET_KANSEI
  else if containsSub text ("採択") then some BUDGET_SAITAKU
  else if containsSub text ("上方") then some BUDGET_UPPER_REVISION
  else none

/-- `buy_main.calc_material_multiplier(title_text)`: the if/elif chain of
price multipliers (each matching arm multiplies 1.0 by 1.03). -/
def calc_material_multiplier (text : String) : ℚ :=
  if containsSub text ("上方") && containsSub text ("増配") then 1.0 * 1.03
  else if containsSub text ("良好") then 1.0 * 1.03
  else if containsSub text ("業務提携") then 1.0 * 1.03
  else if containsSub text ("資本提携") then 1.0 * 1.03
  else if containsSub text ("完成") then 1.0 * 1.03
  else if containsSub text ("採択") then 1.0 * 1.03
  else 1.0

/-- `buy_main.get_budget_multiplier(market_cap)`: the step table actually
in the code (the docstring above it describes different, older values). -/
def get_budget_multiplier (market_cap : ℚ) : ℚ :=
  if 10000000000000 ≤ market_cap then 6
  else if 9000000000000 ≤ market_cap then 5
  else if 8000000000000 ≤ market_cap then 5
  else if 7000000000000 ≤ market_cap then 5
  else if 6000000000000 ≤ market_cap then 4
  else if 5000000000000 ≤ market_cap then 4
  else if 4000000000000 ≤ market_cap then 4
  else if 3000000000000 ≤ market_cap then 3
  else if 2000000000000 ≤ market_cap then 3
  else if 1000000000000 ≤ market_cap then 3
  else if 900000000000 ≤ market_cap then 0.8
  else if 800000000000 ≤ market_cap then 0.7
  else if 700000000000 ≤ market_cap then 0.6
  else if 600000000000 ≤ market_cap then 0.5
  else if 500000000000 ≤ market_cap then 0.4
  else if 400000000000 ≤ market_cap then 0.3
  else if 300000000000 ≤ market_cap then 0.25
  else if 200000000000 ≤ market_cap then 0.25
  else if 100000000000 ≤ market_cap then 0.25
  else if 60000000000 ≤ market_cap then 0.25
  else if 30000000000 ≤ market_cap then 0.25
  else if 15000000000 ≤ market_cap then 0.25
  else 0.2

/-! ### Classifier lemmas -/

lemma tierPlan_qty_100 (lbl : String) (base cost : ℤ) (factor : ℚ)
    (r1 r2 : ℤ → String) (r3 : ℤ → ℤ → String)
    (hnn : 0 ≤ (base : ℚ) * factor) (hover : ⌊(base : ℚ) * factor⌋ < cost) :
    (tierPlan lbl base cost factor r1 r2 r3).qty = 100 := by
  unfold tierPlan
  rw [intTrunc_eq_floor _ hnn, if_pos hover]

lemma tierPlan_qty_ge (lbl : String) (base cost : ℤ) (factor : ℚ)
    (r1 r2 : ℤ → String) (r3 : ℤ → ℤ → String) (hc : 0 < cost) :
    100 ≤ (tierPlan lbl base cost factor r1 r2 r3).qty := by
  unfold tierPlan
  by_cases h : intTrunc ((base : ℚ) * factor) < cost
  · rw [if_pos h]
  · rw [if_neg h]
    push_neg at h
    have h1 : 1 ≤ (intTrunc ((base : ℚ) * factor)).fdiv cost := by
      rw [Int.fdiv_eq_ediv _ (le_of_lt hc)]
      have hself : cost / cost = 1 := Int.ediv_self (by omega)
      calc (1 : ℤ) = cost / cost := hself.symm
        _ ≤ intTrunc ((base : ℚ) * factor) / cost := Int.ediv_le_ediv hc h
    rw [if_neg (by omega)]
    simp only []
    omega

set_option maxHeartbeats 1600000 in
lemma decide_plan_split (text : String) (cost : ℤ) (factor : ℚ) :
    (∃ b, matchedBase text = some b ∧
      ∃ lbl r1 r2 r3, decide_order_plan text cost factor = tierPlan lbl b cost factor r1 r2 r3) ∨
    (matchedBase text = none ∧ decide_order_plan text cost factor =
      ⟨0, "ポジティブ条件該当なし => 発注なし", "未該当"⟩) := by
  unfold matchedBase decide_order_plan
  by_cases h1 : (containsSub text ("消却") && anySub text self_stock_words) = true
  · simp only [if_pos h1]; exact Or.inl ⟨_, rfl, _, _, _, _, rfl⟩
  simp only [if_neg h1]
  by_cases h2 : containsSub text ("自己株式の消却") = true
  · simp only [if_pos h2]; exact Or.inl ⟨_, rfl, _, _, _, _, rfl⟩
  simp only [if_neg h2]
  by_cases h3 : anySub text self_stock_words = true
  · simp only [if_pos h3]; exact Or.inl ⟨_, rfl, _, _, _, _, rfl⟩
  simp only [if_neg h3]
  by_cases h4 : (containsSub text ("上方") && containsSub text ("増配")) = true
  · simp only [if_pos h4]; exact Or.inl ⟨_, rfl, _, _, _, _, rfl⟩
  simp only [if_neg h4]
  by_cases h5 : containsSub text ("良好") = true
  · simp only [if_pos h5]; exact Or.inl ⟨_, rfl, _, _, _, _, rfl⟩
  simp only [if_neg h5]
  by_cases h6 : (containsSub text ("株主優待") &&
      (containsSub text ("新設") || containsSub text ("導入") || containsSub text ("再開"))) = true
  · simp only [if_pos h6]; exact Or.inl ⟨_, rfl, _, _, _, _, rfl⟩
  simp only [if_neg h6]
  by_cases h7 : containsSub text ("業務提携") = true
  · simp only [if_pos h7]; exact Or.inl ⟨_, rfl, _, _, _, _, rfl⟩
  simp only [if_neg h7]
  by_cases h8 : containsSub text ("資本提携") = true
  · simp only [if_pos h8]; exact Or.inl ⟨_, rfl, _, _, _, _, rfl⟩
  simp only [if_neg h8]
  by_cases h9 : containsSub text ("完成") = true
  · simp only [if_pos h9]; exact Or.inl ⟨_, rfl, _, _, _, _, rfl⟩
  simp only [if_neg h9]
  by_cases h10 : containsSub text ("採択") = true
  · simp only [if_pos h10]; exact Or.inl ⟨_, rfl, _, _, _, _, rfl⟩
  simp only [if_neg h10]
  by_cases h11 : containsSub text ("上方") = true
  · simp only [if_pos h11]; exact Or.inl ⟨_, rfl, _, _, _, _, rfl⟩
  simp only [if_neg h11]
  refine Or.inr ⟨?_, ?_⟩ <;> trivial

lemma decide_qty_100_of_matched (text : String) (cost : ℤ) (factor : ℚ)
    (b : ℤ) (h : matchedBase text = some b) (hnn : 0 ≤ (b : ℚ) * factor)
    (hover : ⌊(b : ℚ) * factor⌋ < cost) :
    (decide_order_plan text cost factor).qty = 100 := by
  rcases decide_plan_split text cost factor with ⟨b2, hb2, lbl, r1, r2, r3, heq⟩ | ⟨hn, _⟩
  · rw [h] at hb2
    injection hb2 with hb2
    subst hb2
    rw [heq]
    exact tierPlan_qty_100 _ _ _ _ _ _ _ hnn hover
  · rw [h] at hn; cases hn

lemma decide_qty_ge_of_matched (text : String) (cost : ℤ) (factor : ℚ)
    (h : (matchedBase text).isSome) (hc : 0 < cost) :
    100 ≤ (decide_order_plan text cost factor).qty := by
  rcases decide_plan_split text cost factor with ⟨b2, hb2, lbl, r1, r2, r3, heq⟩ | ⟨hn, _⟩
  · rw [heq]
    exact tierPlan_qty_ge _ _ _ _ _ _ _ hc
  · rw [hn] at h; cases h

lemma decide_unmatched (text : String) (cost : ℤ) (factor : ℚ)
    (h : matchedBase text = none) :
    decide_order_plan text cost factor =
      ⟨0, "ポジティブ条件該当なし => 発注なし", "未該当"⟩ := by
  rcases decide_plan_split text cost factor with ⟨b2, hb2, _, _, _, _, _⟩ | ⟨_, he⟩
  · rw [h] at hb2; cases hb2
  · exact he

/-! ### Datetimes (`datetime.datetime`) and disclosure-time parsing -/

/-- A Python `datetime.datetime` value (microsecond resolution). -/
structure DateTime where
  year : ℤ
  month : ℤ
  day : ℤ
  hour : ℤ
  minute : ℤ
  second : ℤ
  micro : ℤ
deriving Repr, DecidableEq

/-- Days since 1970-01-01 of a Gregorian date (the proleptic calendar used
by `datetime.date.toordinal`, shifted to the Unix epoch). -/
def daysFromCivil (y m d : ℤ) : ℤ :=
  let yAdj := if m ≤ 2 then y - 1 else y
  let era := yAdj.fdiv 400
  let yoe := yAdj - era * 400
  let mp := (m + 9).fmod 12
  let doy := (153 * mp + 2).fdiv 5 + d - 1
  let doe := yoe * 365 + yoe.fdiv 4 - yoe.fdiv 100 + doy
  era * 146097 + doe - 719468

def toEpochSec (t : DateTime) : ℤ :=
  daysFromCivil t.year t.month t.day * 86400 + t.hour * 3600 + t.minute * 60 + t.second

/-- `(a - b).total_seconds()` for two datetimes, in exact arithmetic. -/
def diffSeconds (a b : DateTime) : ℚ :=
  ((toEpochSec a - toEpochSec b : ℤ) : ℚ) + ((a.micro - b.micro : ℤ) : ℚ) / 1000000

def isLeapYear (y : ℤ) : Bool :=
  decide ((y.fmod 4 = 0 ∧ y.fmod 100 ≠ 0) ∨ y.fmod 400 = 0)

def daysInMonth (y m : ℤ) : ℤ :=
  if m = 2 then (if isLeapYear y then 29 else 28)
  else if m = 4 ∨ m = 6 ∨ m = 9 ∨ m = 11 then 30
  else 31

/-- `datetime.datetime(y, mo, d, h, mi)`: validates its arguments (raises
`ValueError` otherwise, modelled as `none`). -/
def mkValidDateTime (y mo d h mi : ℤ) : Option DateTime :=
  if 1 ≤ y ∧ y ≤ 9999 ∧ 1 ≤ mo ∧ mo ≤ 12 ∧ 1 ≤ d ∧ d ≤ daysInMonth y mo ∧
     0 ≤ h ∧ h ≤ 23 ∧ 0 ≤ mi ∧ mi ≤ 59 then
    some ⟨y, mo, d, h, mi, 0, 0⟩
  else none

/-- `buy_main.parse_announcement_datetime(time_text)`:
`"HH:MM"` (length ≤ 5, contains a colon) becomes today's date at that time;
`"YYYY/MM/DD HH:MM"` (length ≥ 16, contains `/` and `:`) becomes that
date-time; anything else (including parse failures, which the code catches
as exceptions) is `None`. -/
def parse_announcement_datetime (now : DateTime) (time_text : String) : Option DateTime :=
  if time_text.length ≤ 5 ∧ containsSub time_text (":") then
    match splitOnChar ':' time_text.data with
    | [hs, ms] =>
      (parseIntCL hs).bind fun hour =>
        (parseIntCL ms).bind fun minute =>
          mkValidDateTime now.year now.month now.day hour minute
    | _ => none
  else if 16 ≤ time_text.length ∧ containsSub time_text ("/") ∧ containsSub time_text (":") then
    match splitOnChar ' ' time_text.data with
    | [date_part, hm_part] =>
      match splitOnChar '/' date_part, splitOnChar ':' hm_part with
      | [ys, mos, ds], [hs, ms] =>
        (parseIntCL ys).bind fun y =>
          (parseIntCL mos).bind fun mo =>
            (parseIntCL ds).bind fun d =>
              (parseIntCL hs).bind fun hour =>
                (parseIntCL ms).bind fun minute =>
                  mkValidDateTime y mo d hour minute
      | _, _ => none
    | _ => none
  else none

/-- `buy_main.is_within_10_seconds_of_now(announcement_dt)` (the body
actually checks a 25-second window): false for `None`, else
`0 <= (now - announcement_dt).total_seconds() <= 25`. -/
def is_within_10_seconds_of_now (now : DateTime) (announcement_dt : Option DateTime) : Prop :=
  match announcement_dt with
  | none => False
  | some a => 0 ≤ diffSeconds now a ∧ diffSeconds now a ≤ 25

instance (now : DateTime) (ann : Option DateTime) :
    Decidable (is_within_10_seconds_of_now now ann) := by
  unfold is_within_10_seconds_of_now
  cases ann <;> infer_instance

/-! ### Entry order controller (`buy_main.main_prod`) -/

/-- One scraped disclosure row, as consumed by `main_prod`. -/
structure Disc where
  symbol : String
  company_name : String
  title_text : String
  time_text : String
deriving Repr, DecidableEq

/-- A buy order sent by `send_buy_order(symbol, limit_price, qty)`. -/
structure BuySubmission where
  symbol : String
  limit_price : ℤ
  qty : ℤ
deriving Repr, DecidableEq

/-- The broker and clock environment one `main_prod` cycle runs against:
`quote s` models `get_current_price(s)` (`None` on failure), `cap s` models
`get_symbol_info(s).get("TotalMarketValue", 0)` with `none` when the key is
absent or the lookup failed (the code then substitutes `0`). -/
structure CycleEnv where
  now : DateTime
  quote : String → Option ℚ
  cap : String → Option ℚ

/-- The per-disclosure body of the order loop in `main_prod`: returns the
buy order submitted for this disclosure, or `none` if any gate skips it.
Gates in code order: symbol already in `ordered_symbols`; disclosure not
within the freshness window; quote missing or non-positive. Then the limit
price, budget multiplier and order plan are computed, and a plan quantity
≤ 0 skips. -/
def buyDecision (env : CycleEnv) (ordered_symbols : List String) (info : Disc) :
    Option BuySubmission :=
  if info.symbol ∈ ordered_symbols then none
  else
    let ann_dt := parse_announcement_datetime env.now info.time_text
    if ¬ is_within_10_seconds_of_now env.now ann_dt then none
    else
      match env.quote info.symbol with
      | none => none
      | some current_price =>
        if current_price ≤ 0 then none
        else
          let market_cap := (env.cap info.symbol).getD 0
          let raw0 := if 30000000000 ≤ market_cap then current_price * 1.01
                      else current_price * 0.98
          let raw_limit_price := raw0 * calc_material_multiplier info.title_text
          let limit_price := pyRound raw_limit_price
          let factor := get_budget_multiplier market_cap
          let cost_per_100 := limit_price * 100
          let plan := decide_order_plan info.title_text cost_per_100 factor
          if plan.qty ≤ 0 then none
          else some ⟨info.symbol, limit_price, plan.qty⟩

/-- One loop iteration of `main_prod`: on a submission the symbol is added
to `ordered_symbols` and the order is appended to the cycle's submissions. -/
def mainProdStep (env : CycleEnv) (st : List String × List BuySubmission)
    (info : Disc) : List String × List BuySubmission :=
  match buyDecision env st.1 info with
  | none => st
  | some sub => (st.1 ++ [sub.symbol], st.2 ++ [sub])

/-- The order loop of `main_prod` over one cycle's disclosures, starting
from the `ordered_symbols` state the process (re)starts with; returns the
final `ordered_symbols` and the buy orders submitted this cycle. -/
def mainProd (env : CycleEnv) (ordered0 : List String) (discs : List Disc) :
    List String × List BuySubmission :=
  discs.foldl (mainProdStep env) (ordered0, [])

/-- The scheduler loop: each minute `run_with_timeout` starts a fresh child
process running `main_prod`. The module-level `ordered_symbols` set of the
parent is never mutated by the parent (only the child's copy is), so every
cycle's child starts from the set as it was at parent start — empty. -/
def schedulerSubs (cycles : List (CycleEnv × List Disc)) : List BuySubmission :=
  cycles.flatMap (fun c => (mainProd c.1 [] c.2).2)

/-! ### Exit controller (`sell_main`) -/

/-- `sell_main.LABEL_RATIO_MAP` (association list, as in the source dict). -/
def LABEL_RATIO_MAP : List (String × ℚ) :=
  [("上方修正 + 増配", 1.02),
   ("自己株式取得 + 消却", 1.015),
   ("自己株式の消却", 1.00),
   ("良好", 1.03),
   ("業務提携", 1.01),
   ("資本提携", 1.01),
   ("優待(新設/導入/再開)", 1.02),
   ("自己株式取得系", 1.01),
   ("上方修正(単独)", 1.01),
   ("完成", 1.03),
   ("採択", 1.03)]

/-- `sell_main.get_additional_ratio_for_label(label)`: dict lookup with
default 1.0. -/
def get_additional_ratio_for_label (label : String) : ℚ :=
  match LABEL_RATIO_MAP.lookup label with
  | some r => r
  | none => 1.0

/-- The on-disk daily ledger `processed_orders.json`:
`{"YYYY-MM-DD": [symbol, ...], ...}`, `none` when the file does not exist. -/
abbrev LedgerData := List (String × List String)

/-- `sell_main.load_processed_symbols_for_today()`: the symbol list stored
under today's date, empty when the file is missing, unreadable, or has no
entry for today. -/
def load_processed_symbols_for_today (today_str : String)
    (file : Option LedgerData) : List String :=
  match file with
  | none => []
  | some data => (data.lookup today_str).getD []

/-- `sell_main.save_processed_symbol_for_today(symbol)`: add today's key if
missing, append the symbol if not already present, write back. -/
def save_processed_symbol_for_today (today_str symbol : String)
    (file : Option LedgerData) : LedgerData :=
  let data : LedgerData := (file.getD [])
  match data.lookup today_str with
  | none => data ++ [(today_str, [symbol])]
  | some syms =>
    if symbol ∈ syms then data
    else data.map (fun e => if e.1 = today_str then (e.1, e.2 ++ [symbol]) else e)

/-- One `Details` record of a broker order (`RecType`, `Price`, `Qty`;
absent keys are `none`). -/
structure OrderDetail where
  recType : Option ℤ
  price : Option ℚ
  qty : Option ℚ
deriving Repr, DecidableEq

/-- A broker order as returned by `get_orders()` and read by the exit
controller (`ID`, `Side`, `State`, `CumQty`, `OrderQty`, `Symbol`,
`Details`). -/
structure BrokerOrder where
  id : String
  side : String
  state : ℤ
  cumQty : ℚ
  orderQty : ℚ
  symbol : String
  details : List OrderDetail
deriving Repr, DecidableEq

/-- The fill-detail accumulation loop in `sell_main.main`: sum
`price * qty` and `qty` over records with `RecType == 8` and both `Price`
and `Qty` present. -/
def detailSums (details : List OrderDetail) : ℚ × ℚ :=
  details.foldl
    (fun acc d =>
      match d.recType, d.price, d.qty with
      | some 8, some p, some q => (acc.1 + p * q, acc.2 + q)
      | _, _, _ => acc)
    (0, 0)

/-- A sell order sent by `send_cash_sell_order(symbol, qty, price)`. -/
structure SellSubmission where
  symbol : String
  qty : ℤ
  price : ℤ
deriving Repr, DecidableEq

/-- The per-order body of the polling loop in `sell_main.main`: convert a
fully-filled buy order (`Side == "2"`, `State == 5`, `CumQty == OrderQty`)
not yet in `processed_order_ids` into a sell order at the fill-weighted
average price times `1.03`, further scaled by the budget-label ratio when
`purchased_log.csv` recorded a (truthy) label for the symbol today, with
the final price rounded by `round_sell_price_for_rules`. Orders whose
eligible fill details sum to zero quantity are skipped. -/
def sellDecision (processed_order_ids : List String)
    (purchased_labels_today : String → Option String)
    (order : BrokerOrder) : Option SellSubmission :=
  if order.side = "2" ∧ order.state = 5 ∧ order.cumQty = order.orderQty then
    if order.id ∈ processed_order_ids then none
    else
      let sums := detailSums order.details
      if sums.2 = 0 then none
      else
        let avg_fill_price := sums.1 / sums.2
        let ratio : ℚ := 1.03
        let ratio2 :=
          match purchased_labels_today order.symbol with
          | some budget_label =>
            if budget_label = "" then ratio
            else ratio * get_additional_ratio_for_label budget_label
          | none => ratio
        let tmp_price := avg_fill_price * ratio2
        let limit_price := round_sell_price_for_rules tmp_price
        some ⟨order.symbol, intTrunc order.cumQty, limit_price⟩
  else none

/-- The state the exit controller's loop threads: the in-memory
`processed_order_ids`, the in-memory `processed_symbols_today`, the on-disk
ledger, and the sell orders sent so far. -/
structure SellState where
  processedIds : List String
  symbolsToday : List String
  ledger : Option LedgerData
  sent : List SellSubmission

/-- One iteration of the order loop in `sell_main.main`: on a conversion
the order id is recorded, the symbol is added to `processed_symbols_today`,
and the ledger file is updated via `save_processed_symbol_for_today`. -/
def sellStep (labels : String → Option String) (today_str : String)
    (st : SellState) (order : BrokerOrder) : SellState :=
  match sellDecision st.processedIds labels order with
  | none => st
  | some sub =>
    { processedIds := st.processedIds ++ [order.id]
      symbolsToday := st.symbolsToday ++ [sub.symbol]
      ledger := some (save_processed_symbol_for_today today_str sub.symbol st.ledger)
      sent := st.sent ++ [sub] }

/-- One full pass of the exit controller over a snapshot of `get_orders()`. -/
def sellCycle (labels : String → Option String) (today_str : String)
    (st : SellState) (orders : List BrokerOrder) : SellState :=
  orders.foldl (sellStep labels today_str) st

/-! ### Stop-loss controller (`losscut.main`) -/

/-- One entry of `position_dict` in `losscut.main`: `Price` (entry price)
and `CurrentPrice` of a position, with its side. -/
structure PosInfo where
  buy_price : ℚ
  current_price : ℚ
  side : String
deriving Repr, DecidableEq

/-- An order as read by the stop-loss loop. -/
structure LcOrder where
  id : String
  side : String
  state : ℤ
  cumQty : ℚ
  orderQty : ℚ
  symbol : String
deriving Repr, DecidableEq

/-- What one iteration of the stop-loss loop does with an order. -/
inductive LcAction where
  | skip : LcAction
  | cancelOnly (order_id : String) : LcAction
  | cancelReplace (order_id symbol : String) (qty : ℤ) (price : ℤ) : LcAction
deriving Repr, DecidableEq

/-- The per-order body of `losscut.main`: for a sell order (`Side == "1"`)
that is not finished or not fully filled, with a known position whose
current price breaches `buy_price * 0.97`: cancel the order, then submit a
replacement sell for `int(order_qty - cum_qty)` shares at
`adjust_price_to_tick(buy_price * 0.95)` when that remainder is positive
(otherwise only the cancel happens). Everything else is left alone. -/
def losscutStep (position_dict : String → Option PosInfo) (od : LcOrder) : LcAction :=
  if od.side = "1" then
    if od.state ≠ 5 ∨ od.cumQty < od.orderQty then
      match position_dict od.symbol with
      | none => .skip
      | some pos =>
        if pos.current_price ≤ pos.buy_price * 0.97 then
          let new_sell_price := adjust_price_to_tick (pos.buy_price * 0.95)
          let remain_qty := intTrunc (od.orderQty - od.cumQty)
          if 0 < remain_qty then .cancelReplace od.id od.symbol remain_qty new_sell_price
          else .cancelOnly od.id
        else .skip
    else .skip
  else .skip

lemma buyDecision_mem (env : CycleEnv) (ordered : List String) (info : Disc)
    (h : info.symbol ∈ ordered) : buyDecision env ordered info = none := by
  unfold buyDecision
  rw [if_pos h]

lemma buyDecision_symbol (env : CycleEnv) (ordered : List String) (info : Disc)
    (s : BuySubmission) (h : buyDecision env ordered info = some s) :
    s.symbol = info.symbol ∧ info.symbol ∉ ordered := by
  simp only [buyDecision] at h
  by_cases hm : info.symbol ∈ ordered
  · rw [if_pos hm] at h; cases h
  · rw [if_neg hm] at h
    refine ⟨?_, hm⟩
    repeat' first
      | (cases h; done)
      | (injection h with h; subst h; rfl)
      | split_ifs at h
      | split at h

lemma mainProd_loop_inv (env : CycleEnv) (discs : List Disc) :
    ∀ (ordered : List String) (subs : List BuySubmission),
      (∀ x ∈ subs, x.symbol ∈ ordered) →
      ((subs.map BuySubmission.symbol).Nodup) →
      (∀ x ∈ (discs.foldl (mainProdStep env) (ordered, subs)).2,
          x.symbol ∈ (discs.foldl (mainProdStep env) (ordered, subs)).1) ∧
      ((discs.foldl (mainProdStep env) (ordered, subs)).2.map BuySubmission.symbol).Nodup := by
  induction discs with
  | nil => intro o s h1 h2; exact ⟨h1, h2⟩
  | cons d ds ih =>
    intro o s h1 h2
    simp only [List.foldl_cons]
    rcases hb : buyDecision env o d with _ | sub
    · have hstep : mainProdStep env (o, s) d = (o, s) := by
        unfold mainProdStep; rw [hb]
      rw [hstep]
      exact ih o s h1 h2
    · have hstep : mainProdStep env (o, s) d = (o ++ [sub.symbol], s ++ [sub]) := by
        unfold mainProdStep; rw [hb]
      rw [hstep]
      obtain ⟨hsym, hnot⟩ := buyDecision_symbol env o d sub hb
      apply ih
      · intro x hx
        rcases List.mem_append.mp hx with hx | hx
        · exact List.mem_append_left _ (h1 x hx)
        · simp only [List.mem_singleton] at hx
          subst hx
          exact List.mem_append_right _ (by simp)
      · rw [List.map_append]
        rw [List.nodup_append]
        refine ⟨h2, by simp, ?_⟩
        intro a ha hb2
        simp only [List.map_cons, List.map_nil, List.mem_singleton] at hb2
        subst hb2
        rcases List.mem_map.mp ha with ⟨x, hxmem, hxs⟩
        have : x.symbol ∈ o := h1 x hxmem
        rw [hxs] at this
        rw [hsym] at this
        exact hnot this

lemma mainProd_count_le_one (env : CycleEnv) (ordered0 : List String)
    (discs : List Disc) (sym : String) :
    ((mainProd env ordered0 discs).2.map BuySubmission.symbol).count sym ≤ 1 := by
  have h := mainProd_loop_inv env discs ordered0 [] (by simp) (by simp)
  exact List.nodup_iff_count_le_one.mp h.2 sym

lemma calc_material_upward_only :
    calc_material_multiplier ("業績予想の上方修正に関するお知らせ") = 1.0 := by
  unfold calc_material_multiplier
  rw [if_neg (by decide), if_neg (by decide), if_neg (by decide), if_neg (by decide),
      if_neg (by decide), if_neg (by decide)]

lemma decide_plan_upward_400 :
    (decide_order_plan ("業績予想の上方修正に関するお知らせ") (490 * 100) (0.2 : ℚ)).qty = 400 := by
  unfold decide_order_plan
  rw [if_neg (by decide), if_neg (by decide), if_neg (by decide), if_neg (by decide),
      if_neg (by decide), if_neg (by decide), if_neg (by decide), if_neg (by decide),
      if_neg (by decide), if_neg (by decide), if_pos (by decide)]
  simp only [tierPlan]
  have hadj : intTrunc ((BUDGET_UPPER_REVISION : ℚ) * 0.2) = 200000 := by
    norm_num [intTrunc, BUDGET_UPPER_REVISION]
  rw [hadj]
  rw [if_neg (by norm_num)]
  have hlots : (200000 : ℤ).fdiv (490 * 100) = 4 := by decide
  rw [hlots]
  rw [if_neg (by norm_num)]
  norm_num

lemma buyDecision_upward500 (env : CycleEnv) (info : Disc)
    (hfresh : is_within_10_seconds_of_now env.now
      (parse_announcement_datetime env.now info.time_text))
    (hq : env.quote info.symbol = some 500)
    (hc : env.cap info.symbol = none)
    (ht : info.title_text = "業績予想の上方修正に関するお知らせ") :
    buyDecision env [] info = some ⟨info.symbol, 490, 400⟩ := by
  simp only [buyDecision]
  rw [if_neg (List.not_mem_nil _)]
  rw [if_neg (not_not_intro hfresh)]
  simp only [hq, hc, ht, Option.getD_none]
  rw [if_neg (by norm_num : ¬ (500:ℚ) ≤ 0)]
  rw [if_neg (by norm_num : ¬ (30000000000 : ℚ) ≤ 0)]
  rw [calc_material_upward_only]
  have hpr : pyRound ((500:ℚ) * 0.98 * 1.0) = 490 := by
    have h1 : (500:ℚ) * 0.98 * 1.0 = 490 := by norm_num
    rw [h1]
    unfold pyRound
    norm_num
  rw [hpr]
  have hfac : get_budget_multiplier 0 = 0.2 := by
    unfold get_budget_multiplier
    norm_num
  rw [hfac]
  rw [decide_plan_upward_400]
  rw [if_neg (by norm_num : ¬ (400:ℤ) ≤ 0)]

/-! ### Concrete two-cycle scenario for the entry controller -/

lemma within_of_epoch10 (now a : DateTime) (h1 : toEpochSec now - toEpochSec a = 10)
    (h2 : now.micro = 0) (h3 : a.micro = 0) :
    is_within_10_seconds_of_now now (some a) := by
  unfold is_within_10_seconds_of_now diffSeconds
  refine ⟨?_, ?_⟩ <;> (rw [h1, h2, h3]; push_cast; norm_num)

def nowCycA : DateTime := ⟨2025, 3, 3, 9, 0, 10, 0⟩

def nowCycB : DateTime := ⟨2025, 3, 3, 9, 1, 10, 0⟩

def discCycA : Disc := ⟨"7203", "トヨタ自動車", "業績予想の上方修正に関するお知らせ", "09:00"⟩

def discCycB : Disc := ⟨"7203", "トヨタ自動車", "業績予想の上方修正に関するお知らせ", "09:01"⟩

def envCycA : CycleEnv :=
  ⟨nowCycA, fun s => if s = "7203" then some 500 else none, fun _ => none⟩

def envCycB : CycleEnv :=
  ⟨nowCycB, fun s => if s = "7203" then some 500 else none, fun _ => none⟩

lemma parse_cycA : parse_announcement_datetime nowCycA ("09:00") =
    some ⟨2025, 3, 3, 9, 0, 0, 0⟩ := by decide

lemma parse_cycB : parse_announcement_datetime nowCycB ("09:01") =
    some ⟨2025, 3, 3, 9, 1, 0, 0⟩ := by decide

lemma buy_cycA : buyDecision envCycA [] discCycA = some ⟨"7203", 490, 400⟩ := by
  apply buyDecision_upward500
  · show is_within_10_seconds_of_now nowCycA (parse_announcement_datetime nowCycA ("09:00"))
    rw [parse_cycA]
    exact within_of_epoch10 _ _ (by decide) rfl rfl
  · rfl
  · rfl
  · rfl

lemma buy_cycB : buyDecision envCycB [] discCycB = some ⟨"7203", 490, 400⟩ := by
  apply buyDecision_upward500
  · show is_within_10_seconds_of_now nowCycB (parse_announcement_datetime nowCycB ("09:01"))
    rw [parse_cycB]
    exact within_of_epoch10 _ _ (by decide) rfl rfl
  · rfl
  · rfl
  · rfl

lemma mainProd_cycA : mainProd envCycA [] [discCycA] = (["7203"], [⟨"7203", 490, 400⟩]) := by
  unfold mainProd
  simp only [List.foldl_cons, List.foldl_nil]
  unfold mainProdStep
  rw [buy_cycA]
  rfl

lemma mainProd_cycB : mainProd envCycB [] [discCycB] = (["7203"], [⟨"7203", 490, 400⟩]) := by
  unfold mainProd
  simp only [List.foldl_cons, List.foldl_nil]
  unfold mainProdStep
  rw [buy_cycB]
  rfl

lemma scheduler_two_cycles :
    schedulerSubs [(envCycA, [discCycA]), (envCycB, [discCycB])] =
      [⟨"7203", 490, 400⟩, ⟨"7203", 490, 400⟩] := by
  unfold schedulerSubs
  simp only [List.flatMap_cons, List.flatMap_nil]
  rw [mainProd_cycA, mainProd_cycB]
  rfl

/-! ### Monotonicity of the budget multiplier table -/

/-- Evaluate a descending-threshold step table: the value of the first
threshold that `x` reaches, else the default. `get_budget_multiplier` is
definitionally `stepEval budgetTable 0.2`. -/
def stepEval (t : List (ℚ × ℚ)) (dflt : ℚ) (x : ℚ) : ℚ :=
  match t with
  | [] => dflt
  | (th, v) :: rest => if th ≤ x then v else stepEval rest dflt x

def budgetTable : List (ℚ × ℚ) :=
  [(10000000000000, 6), (9000000000000, 5), (8000000000000, 5), (7000000000000, 5),
   (6000000000000, 4), (5000000000000, 4), (4000000000000, 4), (3000000000000, 3),
   (2000000000000, 3), (1000000000000, 3), (900000000000, 0.8), (800000000000, 0.7),
   (700000000000, 0.6), (600000000000, 0.5), (500000000000, 0.4), (400000000000, 0.3),
   (300000000000, 0.25), (200000000000, 0.25), (100000000000, 0.25), (60000000000, 0.25),
   (30000000000, 0.25), (15000000000, 0.25)]

/-- Each row's value dominates all later rows' values and the default. -/
def tableOK (t : List (ℚ × ℚ)) (dflt : ℚ) : Prop :=
  match t with
  | [] => True
  | (_, v) :: rest => (∀ p ∈ rest, p.2 ≤ v) ∧ dflt ≤ v ∧ tableOK rest dflt

lemma stepEval_le_of_bound (t : List (ℚ × ℚ)) (d v x : ℚ)
    (hall : ∀ p ∈ t, p.2 ≤ v) (hd : d ≤ v) : stepEval t d x ≤ v := by
  induction t with
  | nil => simpa [stepEval]
  | cons p tl ih =>
    obtain ⟨th, pv⟩ := p
    unfold stepEval
    split_ifs
    · exact hall _ (List.mem_cons_self _ _)
    · exact ih (fun q hq => hall q (List.mem_cons_of_mem _ hq))

lemma stepEval_mono (t : List (ℚ × ℚ)) (d : ℚ) (ht : tableOK t d)
    (x y : ℚ) (hxy : x ≤ y) : stepEval t d x ≤ stepEval t d y := by
  induction t with
  | nil => exact le_refl _
  | cons p tl ih =>
    obtain ⟨th, pv⟩ := p
    obtain ⟨hall, hdle, htl⟩ := ht
    unfold stepEval
    by_cases hx : th ≤ x
    · rw [if_pos hx, if_pos (le_trans hx hxy)]
    · rw [if_neg hx]
      by_cases hy : th ≤ y
      · rw [if_pos hy]
        exact stepEval_le_of_bound tl d pv x hall hdle
      · rw [if_neg hy]
        exact ih htl

lemma gbm_eq_stepEval : ∀ x, get_budget_multiplier x = stepEval budgetTable 0.2 x := by
  intro x
  rfl

lemma budgetTable_OK : tableOK budgetTable 0.2 := by
  norm_num [budgetTable, tableOK]

lemma get_budget_multiplier_mono ⦃x y : ℚ⦄ (hxy : x ≤ y) :
    get_budget_multiplier x ≤ get_budget_multiplier y := by
  rw [gbm_eq_stepEval, gbm_eq_stepEval]
  exact stepEval_mono _ _ budgetTable_OK x y hxy

/-! ### Tick-quantizer properties -/

lemma adjT_eq_self_of_le (p : ℤ) (h : p ≤ 3000) : adjT p = p := by
  unfold adjT
  rw [if_pos h, Int.fdiv_one, mul_one]

lemma adjust_idem (q : ℚ) :
    adjust_price_to_tick ((adjust_price_to_tick q : ℤ) : ℚ) = adjust_price_to_tick q := by
  unfold adjust_price_to_tick
  rw [intTrunc_intCast]
  exact adjT_idem _

lemma adjust_le (q : ℚ) (h : 0 ≤ q) : (adjust_price_to_tick q : ℚ) ≤ q := by
  unfold adjust_price_to_tick
  have h1 : adjT (intTrunc q) ≤ intTrunc q := adjT_le _
  have h2 : (intTrunc q : ℚ) ≤ q := intTrunc_le q h
  calc (adjT (intTrunc q) : ℚ) ≤ (intTrunc q : ℚ) := by exact_mod_cast h1
    _ ≤ q := h2

lemma adjust_band1 (q : ℚ) (h : 0 ≤ q) (hb : q ≤ 3000) :
    (adjust_price_to_tick q : ℚ) ≤ q ∧ q < adjust_price_to_tick q + 1 := by
  unfold adjust_price_to_tick
  have hp1 : (intTrunc q : ℚ) ≤ q := intTrunc_le q h
  have hp2 : q < (intTrunc q : ℚ) + 1 := intTrunc_lt_add_one q h
  have hle : intTrunc q ≤ 3000 := by exact_mod_cast le_trans hp1 hb
  rw [adjT_eq_self_of_le _ hle]
  exact ⟨hp1, by push_cast; linarith⟩

lemma adjust_band2 (q : ℚ) (h : 0 ≤ q) (hb1 : 3000 < q) (hb2 : q ≤ 5000) :
    5 ∣ adjust_price_to_tick q ∧ (adjust_price_to_tick q : ℚ) ≤ q ∧
      q < adjust_price_to_tick q + 5 := by
  have hle := adjust_le q h
  unfold adjust_price_to_tick at *
  have hp1 : (intTrunc q : ℚ) ≤ q := intTrunc_le q h
  have hp2 : q < (intTrunc q : ℚ) + 1 := intTrunc_lt_add_one q h
  have hge : 3000 ≤ intTrunc q := by
    have h9 : (2999 : ℚ) < intTrunc q := by linarith
    have h9i : (2999 : ℤ) < intTrunc q := by exact_mod_cast h9
    omega
  have hub : intTrunc q ≤ 5000 := by exact_mod_cast le_trans hp1 hb2
  rcases eq_or_lt_of_le hge with heq | hlt
  · rw [← heq, adjT_eq_self_of_le _ (by norm_num)]
    refine ⟨by norm_num, ?_, ?_⟩
    · rw [← heq] at hp1; exact_mod_cast hp1
    · rw [← heq] at hp2
      push_cast at hp2 ⊢
      linarith
  · have hval : adjT (intTrunc q) = (intTrunc q).fdiv 5 * 5 := by
      unfold adjT
      rw [if_neg (by omega), if_pos hub]
    have hfd := fdiv_mul_le (intTrunc q) 5 (by norm_num)
    rw [hval]
    rw [hval] at hle
    refine ⟨dvd_mul_left 5 _, hle, ?_⟩
    have hint : intTrunc q + 1 ≤ (intTrunc q).fdiv 5 * 5 + 5 := by omega
    have hcast : (intTrunc q : ℚ) + 1 ≤ (((intTrunc q).fdiv 5 * 5 : ℤ) : ℚ) + 5 := by
      exact_mod_cast hint
    push_cast at hcast ⊢
    linarith

lemma adjust_band3 (q : ℚ) (h : 0 ≤ q) (hb1 : 5000 < q) :
    10 ∣ adjust_price_to_tick q ∧ (adjust_price_to_tick q : ℚ) ≤ q ∧
      q < adjust_price_to_tick q + 10 := by
  have hle := adjust_le q h
  unfold adjust_price_to_tick at *
  have hp1 : (intTrunc q : ℚ) ≤ q := intTrunc_le q h
  have hp2 : q < (intTrunc q : ℚ) + 1 := intTrunc_lt_add_one q h
  have hge : 5000 ≤ intTrunc q := by
    have h9 : (4999 : ℚ) < intTrunc q := by linarith
    have h9i : (4999 : ℤ) < intTrunc q := by exact_mod_cast h9
    omega
  rcases eq_or_lt_of_le hge with heq | hlt
  · have hval : adjT (intTrunc q) = 5000 := by
      rw [← heq]; decide
    rw [hval]
    refine ⟨by norm_num, ?_, ?_⟩
    · rw [hval] at hle; exact hle
    · rw [← heq] at hp2; push_cast at hp2 ⊢; linarith
  · have hval : adjT (intTrunc q) = (intTrunc q).fdiv 10 * 10 := by
      unfold adjT
      rw [if_neg (by omega), if_neg (by omega)]
    have hfd := fdiv_mul_le (intTrunc q) 10 (by norm_num)
    rw [hval]
    rw [hval] at hle
    refine ⟨dvd_mul_left 10 _, hle, ?_⟩
    have hint : intTrunc q + 1 ≤ (intTrunc q).fdiv 10 * 10 + 10 := by omega
    have hcast : (intTrunc q : ℚ) + 1 ≤ (((intTrunc q).fdiv 10 * 10 : ℤ) : ℚ) + 10 := by
      exact_mod_cast hint
    push_cast at hcast ⊢
    linarith

lemma adjust_5012 : adjust_price_to_tick 5012 = 5010 := by
  unfold adjust_price_to_tick
  have h : intTrunc (5012 : ℚ) = 5012 := by norm_num [intTrunc]
  rw [h]; decide

lemma adjust_4327 : adjust_price_to_tick 4327 = 4325 := by
  unfold adjust_price_to_tick
  have h : intTrunc (4327 : ℚ) = 4327 := by norm_num [intTrunc]
  rw [h]; decide

lemma adjust_2999 : adjust_price_to_tick 2999 = 2999 := by
  unfold adjust_price_to_tick
  have h : intTrunc (2999 : ℚ) = 2999 := by norm_num [intTrunc]
  rw [h]; decide

/-! ### Buy-side versus sell-side quantization -/

lemma adjust_eq_round_sell (q : ℚ) :
    adjust_price_to_tick q = round_sell_price_for_rules q := by
  unfold adjust_price_to_tick round_sell_price_for_rules adjT
  by_cases h1 : intTrunc q ≤ 3000
  · rw [if_pos h1, if_neg (by omega), if_neg (by omega), Int.fdiv_one, mul_one]
  · by_cases h2 : intTrunc q ≤ 5000
    · rw [if_neg h1, if_pos h2, if_neg (by omega), if_pos (by omega)]
    · rw [if_neg h1, if_neg h2, if_pos (by omega)]

lemma sendBuy_int_eq (n : ℤ) :
    sendBuyOrderPrice (n : ℚ) = adjT n ∧ sendBuyOrderPrice (n : ℚ) ≤ n := by
  unfold sendBuyOrderPrice adjT
  rw [pyRound_intCast]
  by_cases h1 : 5000 < n
  · rw [if_pos h1, if_neg (by omega), if_neg (by omega)]
    have hfm := Int.fdiv_add_fmod n 10
    have hnn : 0 ≤ n.fmod 10 := by
      rw [Int.fmod_eq_emod _ (by norm_num)]
      exact Int.emod_nonneg n (by norm_num)
    constructor <;> omega
  · by_cases h2 : 3000 < n
    · rw [if_neg h1, if_pos h2, if_neg (by omega : ¬ n ≤ 3000), if_pos (by omega : n ≤ 5000)]
      have hfm := Int.fdiv_add_fmod n 5
      have hnn : 0 ≤ n.fmod 5 := by
        rw [Int.fmod_eq_emod _ (by norm_num)]
        exact Int.emod_nonneg n (by norm_num)
      constructor <;> omega
    · rw [if_neg h1, if_neg h2, if_pos (by omega), Int.fdiv_one, mul_one]
      exact ⟨rfl, le_refl n⟩

lemma pyRound_tenPointSix : pyRound (10.6 : ℚ) = 11 := by
  unfold pyRound
  have hf : ⌊(10.6 : ℚ)⌋ = 10 := by norm_num
  rw [hf]
  rw [if_neg (by norm_num), if_pos (by norm_num)]
  norm_num

lemma sendBuy_tenPointSix : sendBuyOrderPrice (10.6 : ℚ) = 11 := by
  unfold sendBuyOrderPrice
  rw [pyRound_tenPointSix]
  decide

lemma adjust_tenPointSix : adjust_price_to_tick (10.6 : ℚ) = 10 := by
  unfold adjust_price_to_tick
  have h : intTrunc (10.6 : ℚ) = 10 := by norm_num [intTrunc]
  rw [h]; decide

/-! ### Concrete exit-controller conversion (fills 100@1000 and 100@1010) -/

def odExit : BrokerOrder :=
  ⟨"20250303A01", "2", 5, 200, 200, "9984",
    [⟨some 8, some 1000, some 100⟩, ⟨some 8, some 1010, some 100⟩]⟩

def labelsExit : String → Option String :=
  fun s => if s = "9984" then some ("上方修正 + 増配") else none

lemma detailSums_fills :
    detailSums [⟨some 8, some 1000, some 100⟩, ⟨some 8, some 1010, some 100⟩] =
      (201000, 200) := by
  unfold detailSums
  simp only [List.foldl_cons, List.foldl_nil]
  norm_num

lemma ratio_label_102 : get_additional_ratio_for_label ("上方修正 + 増配") = 1.02 := by
  unfold get_additional_ratio_for_label LABEL_RATIO_MAP
  simp [List.lookup]

lemma round_sell_1055853 : round_sell_price_for_rules (1055.853 : ℚ) = 1055 := by
  unfold round_sell_price_for_rules
  have h : intTrunc (1055.853 : ℚ) = 1055 := by norm_num [intTrunc]
  rw [h]
  norm_num

lemma sellDecision_odExit :
    sellDecision [] labelsExit odExit = some ⟨"9984", 200, 1055⟩ := by
  have havg : (201000 : ℚ) / 200 * (1.03 * 1.02) = 1055.853 := by norm_num
  have hqty : intTrunc (200 : ℚ) = 200 := by norm_num [intTrunc]
  simp only [sellDecision, odExit, labelsExit, detailSums_fills]
  norm_num
  refine ⟨hqty, ?_⟩
  rw [if_neg (by decide : ¬ ("上方修正 + 増配" : String) = "")]
  rw [ratio_label_102]
  have h2 : (1005 : ℚ) * (103 / 100 * 1.02) = 1055.853 := by norm_num
  rw [h2, round_sell_1055853]

/-! ### Skip behaviour on data-quality defects -/

lemma buyDecision_no_quote (env : CycleEnv) (ordered : List String) (info : Disc)
    (h : env.quote info.symbol = none) : buyDecision env ordered info = none := by
  simp only [buyDecision, h]
  by_cases hm : info.symbol ∈ ordered
  · rw [if_pos hm]
  · rw [if_neg hm]
    split_ifs <;> rfl

lemma buyDecision_bad_quote (env : CycleEnv) (ordered : List String) (info : Disc)
    (p : ℚ) (h : env.quote info.symbol = some p) (hp : p ≤ 0) :
    buyDecision env ordered info = none := by
  simp only [buyDecision, h]
  by_cases hm : info.symbol ∈ ordered
  · rw [if_pos hm]
  · rw [if_neg hm]
    split_ifs <;> first | rfl | exact absurd hp (by assumption)

lemma buyDecision_bad_time (env : CycleEnv) (ordered : List String) (info : Disc)
    (h : parse_announcement_datetime env.now info.time_text = none) :
    buyDecision env ordered info = none := by
  simp only [buyDecision, h]
  by_cases hm : info.symbol ∈ ordered
  · rw [if_pos hm]
  · rw [if_neg hm]
    rw [if_pos (by simp [is_within_10_seconds_of_now])]

lemma mainProd_skip (env : CycleEnv) (st : List String × List BuySubmission)
    (info : Disc) (rest : List Disc) (h : buyDecision env st.1 info = none) :
    (info :: rest).foldl (mainProdStep env) st = rest.foldl (mainProdStep env) st := by
  have hst : mainProdStep env st info = st := by
    unfold mainProdStep
    rw [h]
  rw [List.foldl_cons, hst]

lemma sellDecision_zero_fills (ids : List String) (labels : String → Option String)
    (od : BrokerOrder) (h : (detailSums od.details).2 = 0) :
    sellDecision ids labels od = none := by
  simp only [sellDecision]
  split_ifs <;> first | rfl | exact absurd h (by assumption)

lemma sellCycle_skip (labels : String → Option String) (today_str : String)
    (st : SellState) (od : BrokerOrder) (rest : List BrokerOrder)
    (h : sellDecision st.processedIds labels od = none) :
    sellCycle labels today_str st (od :: rest) = sellCycle labels today_str st rest := by
  have hst : sellStep labels today_str st od = st := by
    unfold sellStep
    rw [h]
  unfold sellCycle
  rw [List.foldl_cons, hst]

/-! ### The matched tiers all have positive base budgets -/

set_option maxHeartbeats 1600000 in
lemma matchedBase_pos (text : String) (b : ℤ) (h : matchedBase text = some b) :
    0 < b := by
  unfold matchedBase at h
  split_ifs at h <;> first | (injection h with h; subst h; decide) | cases h

/-! ### Concrete symbols for the restart / missing-capitalization scenarios -/

def ledgerRestart : LedgerData := [("2025-03-03", ["7203"])]

lemma load_ledgerRestart :
    load_processed_symbols_for_today ("2025-03-03") (some ledgerRestart) = ["7203"] := by
  decide

def discCapMissing : Disc :=
  ⟨"6501", "日立製作所", "業績予想の上方修正に関するお知らせ", "09:00"⟩

def envCapMissing : CycleEnv :=
  ⟨nowCycA, fun s => if s = "6501" then some 500 else none, fun _ => none⟩

lemma buy_capMissing : buyDecision envCapMissing [] discCapMissing =
    some ⟨"6501", 490, 400⟩ := by
  apply buyDecision_upward500
  · show is_within_10_seconds_of_now nowCycA (parse_announcement_datetime nowCycA ("09:00"))
    rw [parse_cycA]
    exact within_of_epoch10 _ _ (by decide) rfl rfl
  · rfl
  · rfl
  · rfl

def odRestart : BrokerOrder :=
  ⟨"20250303B07", "2", 5, 100, 100, "7203", [⟨some 8, some 1000, some 100⟩]⟩

def labelsNone : String → Option String := fun _ => none

lemma detailSums_oneFill :
    detailSums [⟨some 8, some 1000, some 100⟩] = (100000, 100) := by
  unfold detailSums
  simp only [List.foldl_cons, List.foldl_nil]
  norm_num

lemma round_sell_1030 : round_sell_price_for_rules (1030 : ℚ) = 1030 := by
  unfold round_sell_price_for_rules
  have h : intTrunc (1030 : ℚ) = 1030 := by norm_num [intTrunc]
  rw [h]
  norm_num

lemma sellDecision_odRestart :
    sellDecision [] labelsNone odRestart = some ⟨"7203", 100, 1030⟩ := by
  have hqty : intTrunc (100 : ℚ) = 100 := by norm_num [intTrunc]
  simp only [sellDecision, odRestart, labelsNone, detailSums_oneFill]
  norm_num
  exact ⟨hqty, round_sell_1030⟩

/-! ### Stop-loss helpers and concrete inputs -/

def pdStop : String → Option PosInfo :=
  fun s => if s = "7203" then some ⟨1000, 970, "2"⟩ else none

def odStop : LcOrder := ⟨"ORD1", "1", 1, 100, 300, "7203"⟩

/-! ### Claim theorems -/

/-- C1 (corrected claim, counterexample): two cycles of the scheduler loop in one
process run, each with a fresh disclosure for symbol 7203 that passes every
gate, produce two buy submissions for 7203 — the child process spawned per
cycle mutates only its own copy of `ordered_symbols`, so the parent's set
stays empty and cycle-to-cycle dedup does not happen. -/
theorem C1_cross_cycle_double_submission :
    ((schedulerSubs [(envCycA, [discCycA]), (envCycB, [discCycB])]).map
      BuySubmission.symbol).count "7203" = 2 := by
  rw [scheduler_two_cycles]
  decide

/-- C1 (amended): within a single `main_prod` cycle (one child process run)
the in-memory `ordered_symbols` set gives each symbol at most one buy
submission, and a disclosure that passes every gate yields exactly its one
submission. -/
theorem C1_dedup_within_single_cycle :
    (∀ (env : CycleEnv) (ordered0 : List String) (discs : List Disc) (sym : String),
      ((mainProd env ordered0 discs).2.map BuySubmission.symbol).count sym ≤ 1) ∧
    (∀ (env : CycleEnv) (d : Disc) (sub : BuySubmission),
      buyDecision env [] d = some sub → (mainProd env [] [d]).2 = [sub]) := by
  constructor
  · exact fun env ordered0 discs sym => mainProd_count_le_one env ordered0 discs sym
  · intro env d sub h
    unfold mainProd
    simp only [List.foldl_cons, List.foldl_nil]
    unfold mainProdStep
    rw [h]
    rfl

/-- C1 witness: the concrete passing disclosure of cycle A yields exactly one
submission. -/
theorem C1_dedup_within_single_cycle_witness :
    (mainProd envCycA [] [discCycA]).2 = [⟨"7203", 490, 400⟩] :=
  C1_dedup_within_single_cycle.2 envCycA discCycA _ buy_cycA

/-- C2 (code bug): with the on-disk ledger recording symbol 7203 for
2025-03-03 and a process restart on that date, the ledger is loaded (first
conjunct), yet the entry controller still submits a buy order for 7203 (it
never reads the ledger), and the exit controller with its restart-empty
`processed_order_ids` still submits a sell for the symbol — the skip on
`processed_symbols_today` is commented out in `sell_main.main`. -/
theorem C2_ledger_not_excluding_after_restart :
    load_processed_symbols_for_today ("2025-03-03") (some ledgerRestart) = ["7203"] ∧
    (mainProd envCycA [] [discCycA]).2 = [⟨"7203", 490, 400⟩] ∧
    sellDecision [] labelsNone odRestart = some ⟨"7203", 100, 1030⟩ := by
  refine ⟨load_ledgerRestart, ?_, sellDecision_odRestart⟩
  rw [mainProd_cycA]

/-- C3: for every price `p ≥ 0` the tick quantizer is idempotent, its result
is ≤ p, and it obeys the tick bands (floor to 1 yen at or below 3000, to
5 yen in (3000, 5000], to 10 yen above 5000); and the three spec examples
5012 ↦ 5010, 4327 ↦ 4325, 2999 ↦ 2999 hold. -/
theorem C3_quantizer_props :
    (∀ q : ℚ, 0 ≤ q →
      adjust_price_to_tick ((adjust_price_to_tick q : ℤ) : ℚ) = adjust_price_to_tick q ∧
      (adjust_price_to_tick q : ℚ) ≤ q ∧
      (q ≤ 3000 → q < adjust_price_to_tick q + 1) ∧
      (3000 < q → q ≤ 5000 → 5 ∣ adjust_price_to_tick q ∧ q < adjust_price_to_tick q + 5) ∧
      (5000 < q → 10 ∣ adjust_price_to_tick q ∧ q < adjust_price_to_tick q + 10)) ∧
    adjust_price_to_tick 5012 = 5010 ∧ adjust_price_to_tick 4327 = 4325 ∧
    adjust_price_to_tick 2999 = 2999 :=
  ⟨fun q h => ⟨adjust_idem q, adjust_le q h,
      fun hb => (adjust_band1 q h hb).2,
      fun h1 h2 => ⟨(adjust_band2 q h h1 h2).1, (adjust_band2 q h h1 h2).2.2⟩,
      fun h1 => ⟨(adjust_band3 q h h1).1, (adjust_band3 q h h1).2.2⟩⟩,
    adjust_5012, adjust_4327, adjust_2999⟩

/-- C3 witness: the quantifier applied at the concrete price 4327. -/
theorem C3_quantizer_props_witness :
    adjust_price_to_tick ((adjust_price_to_tick (4327 : ℚ) : ℤ) : ℚ) =
      adjust_price_to_tick (4327 : ℚ) :=
  (C3_quantizer_props.1 4327 (by norm_num)).1

/-- C4 (corrected claim, counterexample): on the raw price 10.6 the buy-side
quantization (which first rounds to the nearest integer) gives 11 while the
sell-side quantizers give 10, and 11 exceeds the raw price — so the two
sides do not agree on every raw price and the buy side can move upward. -/
theorem C4_buy_sell_quantization_differ :
    sendBuyOrderPrice (10.6 : ℚ) = 11 ∧ adjust_price_to_tick (10.6 : ℚ) = 10 ∧
    round_sell_price_for_rules (10.6 : ℚ) = 10 ∧ (10.6 : ℚ) < 11 := by
  refine ⟨sendBuy_tenPointSix, adjust_tenPointSix, ?_, by norm_num⟩
  rw [← adjust_eq_round_sell]
  exact adjust_tenPointSix

/-- C4 (amended): the two sell-side quantizers agree on every raw price, and
on integer raw prices (where Python's `round` is the identity) the buy-side
quantization agrees with them and only moves downward; the divergence is
confined to the buy side's initial round-to-nearest-integer step. -/
theorem C4_quantizers_agree_on_integers :
    (∀ q : ℚ, adjust_price_to_tick q = round_sell_price_for_rules q) ∧
    (∀ n : ℤ, sendBuyOrderPrice (n : ℚ) = adjust_price_to_tick (n : ℚ) ∧
      sendBuyOrderPrice (n : ℚ) ≤ n) := by
  refine ⟨adjust_eq_round_sell, fun n => ?_⟩
  have h := sendBuy_int_eq n
  have ha : adjust_price_to_tick (n : ℚ) = adjT n := by
    unfold adjust_price_to_tick
    rw [intTrunc_intCast]
  exact ⟨by rw [ha, ← h.1], h.2⟩

/-- C5: whenever the headline matches a budget tier and the (positive) cost
of one round lot exceeds the adjusted budget `floor(base_budget * factor)`
for a positive factor, `decide_order_plan` returns quantity exactly 100. -/
theorem C5_minimum_lot :
    ∀ (text : String) (cost_per_100 : ℤ) (factor : ℚ) (base : ℤ),
      matchedBase text = some base → 0 < cost_per_100 → 0 < factor →
      ⌊(base : ℚ) * factor⌋ < cost_per_100 →
      (decide_order_plan text cost_per_100 factor).qty = 100 := by
  intro text cost factor b hm hc hf hover
  have hb := matchedBase_pos text b hm
  have hnn : 0 ≤ (b : ℚ) * factor :=
    mul_nonneg (by exact_mod_cast le_of_lt hb) (le_of_lt hf)
  exact decide_qty_100_of_matched text cost factor b hm hnn hover

/-- C5 witness: a 良好 headline with lot cost 2,000,000 over the 1,500,000
ceiling gets exactly one round lot. -/
theorem C5_minimum_lot_witness :
    (decide_order_plan ("良好") 2000000 1).qty = 100 :=
  C5_minimum_lot ("良好") 2000000 1 1500000 (by decide) (by norm_num) (by norm_num)
    (by norm_num)

/-- C6 (corrected claim, counterexample): no capitalization band has a
multiplier strictly smaller than both a lower and a higher capitalization's
multiplier — the table in the code is monotone, so the claimed
non-monotonic dip does not exist. -/
theorem C6_no_band_below_both_neighbors :
    ¬ ∃ x y z : ℚ, x ≤ y ∧ y ≤ z ∧
      get_budget_multiplier y < get_budget_multiplier x ∧
      get_budget_multiplier y < get_budget_multiplier z := by
  rintro ⟨x, y, z, hxy, _, h1, _⟩
  exact absurd (get_budget_multiplier_mono hxy) (not_le.2 h1)

/-- C6 (amended): `get_budget_multiplier` is a monotone non-decreasing step
function of market capitalization across its whole range, from 0.2 below
the lowest threshold up to 6 at 10 trillion yen and above. -/
theorem C6_budget_multiplier_monotone :
    Monotone get_budget_multiplier ∧
    get_budget_multiplier 0 = 0.2 ∧ get_budget_multiplier 10000000000000 = 6 := by
  refine ⟨fun x y h => get_budget_multiplier_mono h, ?_, ?_⟩
  · unfold get_budget_multiplier
    norm_num
  · unfold get_budget_multiplier
    norm_num

/-- C7 (corrected claim, counterexample): the weighted average 1005 under
markup 1.03 and label ratio 1.02 gives 1055.853, which is not ≈ 1056.6
(it is below 1056); the tick price of the claimed 1056.6 would be 1056,
but the controller actually submits 1055. -/
theorem C7_exit_price_not_1056 :
    (1005 : ℚ) * 1.03 * 1.02 = 1055.853 ∧
    ¬ ((1056 : ℚ) ≤ 1005 * 1.03 * 1.02) ∧
    round_sell_price_for_rules (1056.6 : ℚ) = 1056 ∧
    sellDecision [] labelsExit odExit = some ⟨"9984", 200, 1055⟩ ∧
    (1055 : ℤ) ≠ 1056 := by
  refine ⟨by norm_num, by norm_num, ?_, sellDecision_odExit, by norm_num⟩
  unfold round_sell_price_for_rules
  have h : intTrunc (1056.6 : ℚ) = 1056 := by norm_num [intTrunc]
  rw [h]
  norm_num

/-- C7 (amended): a fully-filled buy with fills 100@1000 and 100@1010 has
fill-weighted average 1005; markup 1.03 and the 1.02 label ratio give the
raw sell price 1005 × 1.03 × 1.02 = 1055.853, and the submitted sell limit
is its §4.1 quantization 1055 for the full filled quantity 200. -/
theorem C7_exit_price_1055 :
    detailSums odExit.details = (201000, 200) ∧
    (201000 : ℚ) / 200 = 1005 ∧
    (1005 : ℚ) * 1.03 * 1.02 = 1055.853 ∧
    round_sell_price_for_rules (1055.853 : ℚ) = 1055 ∧
    sellDecision [] labelsExit odExit = some ⟨"9984", 200, 1055⟩ :=
  ⟨detailSums_fills, by norm_num, by norm_num, round_sell_1055853, sellDecision_odExit⟩

/-- C8: when a sell order is non-terminal and not fully filled, its
position is known, and the current price is at or below 0.97 of the entry
price, the stop-loss loop cancels the order and resubmits the integer
remainder `int(order_qty - cum_qty)` at the tick-quantized 0.95 of the
entry price whenever that remainder is positive — and only cancels when it
is not; an order that is terminal and fully filled is never acted on. -/
theorem C8_stoploss_cancel_replace :
    (∀ (position_dict : String → Option PosInfo) (od : LcOrder) (pos : PosInfo),
      od.side = "1" → od.state ≠ 5 → od.cumQty < od.orderQty →
      position_dict od.symbol = some pos →
      pos.current_price ≤ pos.buy_price * 0.97 →
      (0 < intTrunc (od.orderQty - od.cumQty) →
        losscutStep position_dict od =
          .cancelReplace od.id od.symbol (intTrunc (od.orderQty - od.cumQty))
            (adjust_price_to_tick (pos.buy_price * 0.95))) ∧
      (intTrunc (od.orderQty - od.cumQty) ≤ 0 →
        losscutStep position_dict od = .cancelOnly od.id)) ∧
    (∀ (position_dict : String → Option PosInfo) (od : LcOrder),
      od.side = "1" → od.state = 5 → od.cumQty = od.orderQty →
      losscutStep position_dict od = .skip) := by
  constructor
  · intro pd od pos hside hstate hfill hpos hbreach
    simp only [losscutStep, hpos]
    rw [if_pos hside, if_pos (Or.inl hstate), if_pos hbreach]
    constructor
    · intro hrem
      rw [if_pos hrem]
    · intro hrem
      rw [if_neg (not_lt.2 hrem)]
  · intro pd od hside hstate hfill
    simp only [losscutStep]
    rw [if_pos hside, if_neg (by simp [hstate, hfill])]

/-- C8 witness: entry 1000, current 970 (at the 0.97 line), open sell order
for 300 with 100 filled — the loop cancels and resubmits 200 shares at the
quantized 950. -/
theorem C8_stoploss_cancel_replace_witness :
    losscutStep pdStop odStop =
      .cancelReplace ("ORD1") ("7203") (intTrunc ((300 : ℚ) - 100))
        (adjust_price_to_tick ((1000 : ℚ) * 0.95)) :=
  (C8_stoploss_cancel_replace.1 pdStop odStop ⟨1000, 970, "2"⟩ rfl (by decide)
    (by show (100 : ℚ) < 300; norm_num) rfl (by show (970 : ℚ) ≤ 1000 * 0.97; norm_num)).1
    (by show (0 : ℤ) < intTrunc ((300 : ℚ) - 100); norm_num [intTrunc])

/-- C9 (amended): a missing quote, a non-positive quote, or a malformed
disclosure timestamp each make the entry controller skip the disclosure for
that cycle while the loop continues with the remaining disclosures; a
fully-filled buy whose eligible fill details sum to zero quantity makes the
exit controller skip that order while its loop continues. (A missing market
capitalization, by contrast, does not cause a skip — see the
counterexample.) -/
theorem C9_data_quality_skips :
    (∀ (env : CycleEnv) (ordered : List String) (info : Disc),
      env.quote info.symbol = none → buyDecision env ordered info = none) ∧
    (∀ (env : CycleEnv) (ordered : List String) (info : Disc) (p : ℚ),
      env.quote info.symbol = some p → p ≤ 0 → buyDecision env ordered info = none) ∧
    (∀ (env : CycleEnv) (ordered : List String) (info : Disc),
      parse_announcement_datetime env.now info.time_text = none →
      buyDecision env ordered info = none) ∧
    (∀ (env : CycleEnv) (st : List String × List BuySubmission) (info : Disc)
        (rest : List Disc), buyDecision env st.1 info = none →
      (info :: rest).foldl (mainProdStep env) st = rest.foldl (mainProdStep env) st) ∧
    (∀ (ids : List String) (labels : String → Option String) (od : BrokerOrder),
      (detailSums od.details).2 = 0 → sellDecision ids labels od = none) ∧
    (∀ (labels : String → Option String) (today_str : String) (st : SellState)
        (od : BrokerOrder) (rest : List BrokerOrder),
      sellDecision st.processedIds labels od = none →
      sellCycle labels today_str st (od :: rest) = sellCycle labels today_str st rest) :=
  ⟨buyDecision_no_quote, buyDecision_bad_quote, buyDecision_bad_time,
    mainProd_skip, sellDecision_zero_fills, sellCycle_skip⟩

/-- C9 witness: concrete skips — a symbol with no quote is skipped, a
malformed time text is skipped, and an order with no eligible fill details
is skipped. -/
theorem C9_data_quality_skips_witness :
    buyDecision envCapMissing [] ⟨"9999", "X", "上方", "09:00"⟩ = none ∧
    buyDecision envCapMissing [] ⟨"6501", "X", "上方", "garbage"⟩ = none ∧
    sellDecision [] labelsNone ⟨"B1", "2", 5, 100, 100, "7203", []⟩ = none :=
  ⟨C9_data_quality_skips.1 envCapMissing [] ⟨"9999", "X", "上方", "09:00"⟩ rfl,
    C9_data_quality_skips.2.2.1 envCapMissing [] ⟨"6501", "X", "上方", "garbage"⟩ (by decide),
    C9_data_quality_skips.2.2.2.2.1 [] labelsNone ⟨"B1", "2", 5, 100, 100, "7203", []⟩ rfl⟩

/-- C9 (corrected claim, counterexample): a missing market capitalization
does not skip the symbol — `get("TotalMarketValue", 0)` substitutes 0 and
the order is still submitted (at the small-cap price offset and budget
multiplier). -/
theorem C9_missing_cap_still_submits :
    envCapMissing.cap discCapMissing.symbol = none ∧
    buyDecision envCapMissing [] discCapMissing = some ⟨"6501", 490, 400⟩ :=
  ⟨rfl, buy_capMissing⟩

/-- C10: for a positive lot cost, any headline matching a budget tier gets
quantity at least 100 whatever the factor (the `lots ≤ 0` zero-quantity
arms are unreachable), so quantity 0 is returned only for unmatched
headlines, with label 未該当. -/
theorem C10_matched_never_zero :
    ∀ (text : String) (cost_per_100 : ℤ) (factor : ℚ), 0 < cost_per_100 →
      ((matchedBase text).isSome →
        100 ≤ (decide_order_plan text cost_per_100 factor).qty) ∧
      ((decide_order_plan text cost_per_100 factor).qty = 0 →
        matchedBase text = none ∧
        (decide_order_plan text cost_per_100 factor).budget_label = "未該当") := by
  intro text cost factor hc
  constructor
  · intro h
    exact decide_qty_ge_of_matched text cost factor h hc
  · intro h0
    rcases hm : matchedBase text with _ | b
    · have he := decide_unmatched text cost factor hm
      exact ⟨rfl, by rw [he]⟩
    · have hge := decide_qty_ge_of_matched text cost factor (by rw [hm]; rfl) hc
      omega

/-- C10 witness: a 業務提携 headline with positive lot cost gets at least one
round lot. -/
theorem C10_matched_never_zero_witness :
    100 ≤ (decide_order_plan ("業務提携") 100000 1).qty :=
  (C10_matched_never_zero ("業務提携") 100000 1 (by norm_num)).1 (by decide)
